import Mathlib

/-!
Shallow embedding of `repo_to_text_mcp_server.py`: the inclusion/exclusion
filtering engine (`RepoToTextConverter._should_include_file`), the two
serializers (`generate_xml_format`, `generate_shotgun_format`), the token
estimator (`TokenEstimator`) and the section splitter
(`GeminiTaskGenerator.parse_gemini_response`), together with theorems
settling the specification claims about them.

Python string primitives (`lower`, `strip`, `split`, `startswith`,
substring containment, `'\n'.join`) are modelled as executable functions
over `List Char`; `fnmatch.fnmatch` is modelled as a glob matcher with
`*`, `?` and `[...]` classes, matching the regex produced by
`fnmatch.translate` on POSIX (where `os.path.normcase` is the identity).
Filesystem interaction is split in two: the directory tree handed to
`os.walk` is an explicit inductive tree whose files carry the result of
`open(...).read()` (`Except` models a raised `OSError`), while
`mimetypes.guess_type` and `os.path.getsize` — the latter applied by the
code to the *relative* path, hence resolved against the process working
directory rather than the walked root — are oracles bundled in `SysEnv`
(`none` for `getsize` models a raised exception).
-/

namespace RepoToText

/-- Model of `'\n'.join(lines)`. -/
def joinLines : List String → String
  | [] => ""
  | [x] => x
  | x :: y :: rest => x ++ "\n" ++ joinLines (y :: rest)

/-- Does `hay` start with `needle` (character lists)? -/
def charsStartWith : List Char → List Char → Bool
  | [], _ => true
  | _ :: _, [] => false
  | a :: as, b :: bs => a == b && charsStartWith as bs

/-- Does `needle` occur contiguously anywhere in `hay` (character lists)? -/
def charsContain (needle : List Char) : List Char → Bool
  | [] => charsStartWith needle []
  | b :: bs => charsStartWith needle (b :: bs) || charsContain needle bs

/-- Model of Python `sub in s` (substring containment). -/
def strContains (s sub : String) : Bool :=
  charsContain sub.toList s.toList

/-- Model of Python `s.startswith(pre)`. -/
def pyStartsWith (s pre : String) : Bool :=
  charsStartWith pre.toList s.toList

/-- Model of Python `s.endswith(suf)`. -/
def pyEndsWith (s suf : String) : Bool :=
  charsStartWith suf.toList.reverse s.toList.reverse

/-- Model of Python `s.lower()` (ASCII-relevant part). -/
def pyLower (s : String) : String :=
  String.mk (s.toList.map Char.toLower)

/-- Strip leading and trailing whitespace from a character list. -/
def stripChars (l : List Char) : List Char :=
  ((l.dropWhile Char.isWhitespace).reverse.dropWhile Char.isWhitespace).reverse

/-- Model of Python `s.strip()`. -/
def pyStrip (s : String) : String :=
  String.mk (stripChars s.toList)

/-- Split a character list at every occurrence of `c`. -/
def splitCharList (c : Char) : List Char → List (List Char)
  | [] => [[]]
  | x :: xs =>
    let r := splitCharList c xs
    if x == c then [] :: r
    else
      match r with
      | [] => [[x]]
      | h :: t => (x :: h) :: t

/-- Model of Python `s.split('\n')`. -/
def pySplitNl (s : String) : List String :=
  (splitCharList '\n' s.toList).map String.mk

/-- A string of `n` spaces (Python `' ' * n`). -/
def spaces (n : Nat) : String :=
  String.mk (List.replicate n ' ')

/-- Membership test for a glob character class: `members` is the raw text
between `[` and `]`, with `a-b` denoting a range, as in the regex class
`fnmatch.translate` produces. -/
def charInSet (c : Char) : List Char → Bool
  | a :: '-' :: b :: rest => (decide (a ≤ c) && decide (c ≤ b)) || charInSet c rest
  | a :: rest => (a == c) || charInSet c rest
  | [] => false

/-- Scan forward to the closing `]` of a glob character class, returning
the member characters and the remainder of the pattern, or `none` when the
class is unterminated (in which case `fnmatch` treats `[` as a literal). -/
def findClose : List Char → Option (List Char × List Char)
  | [] => none
  | ']' :: rest => some ([], rest)
  | c :: rest =>
    match findClose rest with
    | none => none
    | some (m, r) => some (c :: m, r)

/-- Core of `fnmatch.fnmatch(name, pattern)`: match the character list
`cs` (the name) against the glob pattern `ps`, with `*` matching any run
of characters (including path separators), `?` matching exactly one
character, and `[...]` / `[!...]` character classes; an unterminated `[`
is a literal, mirroring `fnmatch.translate`.  The `fuel` argument makes
the function structurally recursive (hence kernel-computable); every
recursive call strictly decreases `ps.length + cs.length`, so any fuel
above that sum gives the untruncated semantics. -/
def fnmatchFuel : Nat → List Char → List Char → Bool
  | 0, _, _ => false
  | fuel + 1, ps, cs =>
    match ps, cs with
    | [], [] => true
    | [], _ :: _ => false
    | '*' :: ps', [] => fnmatchFuel fuel ps' []
    | '*' :: ps', c :: cs' =>
      fnmatchFuel fuel ps' (c :: cs') || fnmatchFuel fuel ('*' :: ps') cs'
    | '?' :: _, [] => false
    | '?' :: ps', _ :: cs' => fnmatchFuel fuel ps' cs'
    | '[' :: ps', cs =>
      let negp : Bool × List Char :=
        match ps' with
        | '!' :: r => (true, r)
        | _ => (false, ps')
      let scanned : Option (List Char × List Char) :=
        match negp.2 with
        | ']' :: r =>
          match findClose r with
          | none => none
          | some (m, rest) => some (']' :: m, rest)
        | l => findClose l
      match scanned with
      | none =>
        match cs with
        | [] => false
        | c :: cs' => c == '[' && fnmatchFuel fuel ps' cs'
      | some (members, rest) =>
        match cs with
        | [] => false
        | c :: cs' => (charInSet c members != negp.1) && fnmatchFuel fuel rest cs'
    | _ :: _, [] => false
    | p :: ps', c :: cs' => p == c && fnmatchFuel fuel ps' cs'

/-- Model of `fnmatch.fnmatch(name, pattern)` on POSIX. -/
def fnmatch (name pattern : String) : Bool :=
  fnmatchFuel (pattern.toList.length + name.toList.length + 1) pattern.toList name.toList

/-- `ProjectConfig` dataclass (`repo_to_text_mcp_server.py`, lines 39-47). -/
structure ProjectConfig where
  gitignore_import : Bool := true
  ignore_tree_and_content : List String := []
  ignore_content_only : List String := []
  max_file_size : Nat := 1048576
  include_patterns : List String := []
  exclude_patterns : List String := []

/-- `ProjectConfig.DEFAULT_EXCLUSIONS` (lines 50-78), verbatim. -/
def DEFAULT_EXCLUSIONS : List String :=
  [ "node_modules/", "venv/", "env/", ".env/", "__pycache__/",
    "vendor/", ".bundle/", "pkg/", "target/", "dist/", "build/",
    ".git/", ".svn/", ".hg/", ".bzr/",
    ".vscode/", ".idea/", "*.swp", "*.swo", "*~", ".DS_Store",
    "Thumbs.db", "desktop.ini",
    "*.log", "logs/", "temp/", "tmp/", ".cache/", ".tmp/",
    "*.pyc", "*.pyo", "*.class", "*.o", "*.so", "*.exe", "*.dll",
    "*.obj", "*.bin", "*.deb", "*.rpm", "*.dmg", "*.msi",
    "*.jpg", "*.jpeg", "*.png", "*.gif", "*.ico", "*.svg",
    "*.mp3", "*.mp4", "*.avi", "*.mov", "*.wmv",
    "*.zip", "*.tar", "*.tar.gz", "*.rar", "*.7z",
    "*.db", "*.sqlite", "*.sqlite3" ]

/-- The default-constructed `ProjectConfig()`. -/
def defaultConfig : ProjectConfig := {}

/-- External-system oracles: `guess` models `mimetypes.guess_type(path)[0]`
(an extension-driven stdlib table, `none` for unknown extensions); and
`statSize` models `os.path.getsize(path)` as executed by the code — the
path it receives is the root-relative path, so the lookup happens against
the process current working directory; `none` models a raised `OSError`. -/
structure SysEnv where
  guess : String → Option String
  statSize : String → Option Nat

/-- `RepoToTextConverter._should_include_file` (lines 166-185): a path is
rejected if any pattern in `exclude_patterns + DEFAULT_EXCLUSIONS` matches
it by `fnmatch` or by substring containment; then if its guessed MIME type
is truthy and not `text/...`; then if `os.path.getsize` exceeds
`max_file_size` or raises (the bare `except: return False`). -/
def _should_include_file (env : SysEnv) (cfg : ProjectConfig) (file_path : String) : Bool :=
  if (cfg.exclude_patterns ++ DEFAULT_EXCLUSIONS).any
      (fun pattern => fnmatch file_path pattern || strContains file_path pattern) then
    false
  else if (match env.guess file_path with
           | some mime_type => mime_type != "" && !(pyStartsWith mime_type "text/")
           | none => false) then
    false
  else
    match env.statSize file_path with
    | some n => if n > cfg.max_file_size then false else true
    | none => false

/-- A node of the directory tree below the walked root: either a file
(name and the outcome of reading it) or a directory with children, listed
in the order `os.walk` enumerates them. -/
inductive Entry where
  | file : String → Except String String → Entry
  | dir : String → List Entry → Entry

/-- One file as seen by the walk: root-relative path (what
`os.path.relpath(os.path.join(root, file), root_path)` yields), basename,
and read outcome. -/
structure WalkFile where
  rel : String
  name : String
  content : Except String String

/-- One `(root, dirs, files)` triple of `os.walk`, reduced to what the
code consumes: the directory's depth below the root (`level`), its
basename, and its directly contained files. -/
structure WalkDir where
  level : Nat
  base : String
  files : List WalkFile

/-- `os.path.join` of a relative directory prefix and an entry name,
as `os.path.relpath` would report it. -/
def joinRel (pre name : String) : String :=
  if pre == "" then name else pre ++ "/" ++ name

/-- The files directly contained in a directory whose root-relative path
is `pre`, in enumeration order. -/
def filesOf (pre : String) (cs : List Entry) : List WalkFile :=
  cs.filterMap fun e =>
    match e with
    | .file n c => some ⟨joinRel pre n, n, c⟩
    | .dir _ _ => none

mutual

/-- `os.walk` on one child entry: a file contributes nothing of its own
(it is listed by its parent), a directory contributes its own triple
followed, top-down, by the triples of its subtree. -/
def walkEntry (pre : String) (lvl : Nat) : Entry → List WalkDir
  | .file _ _ => []
  | .dir n cs =>
    ⟨lvl, n, filesOf (joinRel pre n) cs⟩ :: walkEntries (joinRel pre n) (lvl + 1) cs

/-- `os.walk` over a sibling list, children in enumeration order. -/
def walkEntries (pre : String) (lvl : Nat) : List Entry → List WalkDir
  | [] => []
  | e :: es => walkEntry pre lvl e ++ walkEntries pre lvl es

end

/-- `os.walk(root_path)` for a root directory with basename `base` and
children `cs`: the root's own triple first, then each subtree top-down.
`os.walk` descends into every subdirectory — the code never edits the
`dirs` list, so no pruning happens. -/
def walkRoot (base : String) (cs : List Entry) : List WalkDir :=
  ⟨0, base, filesOf "" cs⟩ :: walkEntries "" 1 cs

/-- All files the walk reports, in walk order. -/
def allWalkFiles (cs : List Entry) : List WalkFile :=
  (walkRoot "" cs).flatMap (·.files)

/-- The directory-structure section body of `generate_xml_format`
(lines 196-204): one line per walked directory (always emitted, with
two-space indentation per level and a trailing slash), then one line per
directly contained file that passes `_should_include_file`. -/
def structureLinesOf (env : SysEnv) (cfg : ProjectConfig) (d : WalkDir) : List String :=
  (spaces (2 * d.level) ++ d.base ++ "/") ::
    d.files.filterMap fun f =>
      if _should_include_file env cfg f.rel then
        some (spaces (2 * (d.level + 1)) ++ f.name)
      else none

/-- The content section of `generate_xml_format` (lines 209-223): for each
walked file passing the filter, a `<content full_path="...">` block with
the raw text and a blank separator line, or — when the read raises — a
single inline error comment naming the path. -/
def contentLinesOf (env : SysEnv) (cfg : ProjectConfig) (d : WalkDir) : List String :=
  d.files.flatMap fun f =>
    if _should_include_file env cfg f.rel then
      match f.content with
      | .ok content =>
        ["<content full_path=\"" ++ f.rel ++ "\">", content, "</content>", ""]
      | .error e => ["<!-- Error reading " ++ f.rel ++ ": " ++ e ++ " -->"]
    else []

/-- The full line list built by `generate_xml_format` (lines 187-226) for
a root directory with basename `rootBase` and children `cs`. -/
def xmlLines (env : SysEnv) (cfg : ProjectConfig) (rootBase : String) (cs : List Entry) :
    List String :=
  ["<repo-to-text>", "Directory: " ++ rootBase, "", "<directory_structure>"]
    ++ (walkRoot rootBase cs).flatMap (structureLinesOf env cfg)
    ++ ["</directory_structure>", ""]
    ++ (walkRoot rootBase cs).flatMap (contentLinesOf env cfg)
    ++ ["</repo-to-text>"]

/-- `RepoToTextConverter.generate_xml_format`: the joined line list. -/
def generate_xml_format (env : SysEnv) (cfg : ProjectConfig) (rootBase : String)
    (cs : List Entry) : String :=
  joinLines (xmlLines env cfg rootBase cs)

/-- Per-directory contribution of `generate_shotgun_format`
(lines 232-246): for each file passing the filter whose read succeeds,
the begin delimiter line, the raw content, the end delimiter line and a
blank line; a file whose read raises is skipped (`except: continue`). -/
def shotgunLinesOf (env : SysEnv) (cfg : ProjectConfig) (d : WalkDir) : List String :=
  d.files.flatMap fun f =>
    if _should_include_file env cfg f.rel then
      match f.content with
      | .ok content =>
        ["*#*#*" ++ f.rel ++ "*#*#*begin*#*#*", content, "*#*#*end*#*#*", ""]
      | .error _ => []
    else []

/-- The full line list of `generate_shotgun_format` (the root's basename
is never used by this format). -/
def shotgunLines (env : SysEnv) (cfg : ProjectConfig) (cs : List Entry) : List String :=
  (walkRoot "" cs).flatMap (shotgunLinesOf env cfg)

/-- `RepoToTextConverter.generate_shotgun_format`: the joined line list. -/
def generate_shotgun_format (env : SysEnv) (cfg : ProjectConfig) (cs : List Entry) : String :=
  joinLines (shotgunLines env cfg cs)

/-- The root-relative paths for which the XML render emits a
`<content full_path="...">` block, in emission order: exactly the walked
files that pass the filter and whose read succeeds. -/
def xmlContentPaths (env : SysEnv) (cfg : ProjectConfig) (cs : List Entry) : List String :=
  (allWalkFiles cs).filterMap fun f =>
    if _should_include_file env cfg f.rel then
      match f.content with
      | .ok _ => some f.rel
      | .error _ => none
    else none

/-- The root-relative paths for which the shotgun render emits a
delimited block, in emission order: exactly the walked files that pass
the filter and whose read succeeds. -/
def shotgunContentPaths (env : SysEnv) (cfg : ProjectConfig) (cs : List Entry) : List String :=
  (allWalkFiles cs).filterMap fun f =>
    if _should_include_file env cfg f.rel then
      match f.content with
      | .ok _ => some f.rel
      | .error _ => none
    else none

/-- `TokenEstimator.TOKEN_RATIOS` (lines 84-89), with the Python floats
4.0 and 4.5 as exact rationals. -/
def TOKEN_RATIOS : List (String × ℚ) :=
  [("openai", 4), ("anthropic", 9 / 2), ("google", 4), ("generic", 4)]

/-- The ratio chosen by `estimate_tokens`:
`TOKEN_RATIOS.get(provider.lower(), TOKEN_RATIOS["generic"])`. -/
def tokenRatioOf (provider : String) : ℚ :=
  (TOKEN_RATIOS.lookup (pyLower provider)).getD
    ((TOKEN_RATIOS.lookup "generic").getD 4)

/-- `TokenEstimator.estimate_tokens` (lines 91-95):
`int(len(text) / ratio)`.  The Python `int()` truncation of the
nonnegative float quotient coincides with the rational floor for every
realizable string length, so the model computes `⌊len / ratio⌋` in `ℚ`. -/
def estimate_tokens (text : String) (provider : String) : ℤ :=
  ⌊(text.length : ℚ) / tokenRatioOf provider⌋

/-- `TokenEstimator.get_context_limits` (lines 97-108), verbatim. -/
def get_context_limits : List (String × Nat) :=
  [ ("gpt-4", 128000), ("gpt-4-turbo", 128000),
    ("claude-3-sonnet", 200000), ("claude-3-opus", 200000),
    ("claude-3.5-sonnet", 200000),
    ("gemini-1.5-pro", 2000000), ("gemini-2.0-flash", 1000000) ]

/-- The percentage computed by the `estimate_tokens` tool handler
(line 744): `(tokens / limit) * 100`. -/
def utilization (tokens : ℤ) (limit : Nat) : ℚ :=
  ((tokens : ℚ) / (limit : ℚ)) * 100

/-- The seven bucket identifiers of `parse_gemini_response`. -/
inductive SecId where
  | overview
  | architecture_changes
  | implementation_steps
  | file_modifications
  | code_examples
  | testing_strategy
  | potential_issues
deriving DecidableEq

/-- The `sections` dictionary of `parse_gemini_response` (lines 308-316):
`overview` and `testing_strategy` hold accumulated joined text, the other
five hold the list of accumulated lines. -/
structure Sections where
  overview : String
  architecture_changes : List String
  implementation_steps : List String
  file_modifications : List String
  code_examples : List String
  testing_strategy : String
  potential_issues : List String
deriving DecidableEq

/-- The initial `sections` dictionary: empty strings and empty lists. -/
def initSections : Sections := ⟨"", [], [], [], [], "", []⟩

/-- The heading test of `parse_gemini_response` (lines 322-344): the first
branch of the `elif` chain whose keywords all occur in
`line.lower().strip()` and for which `line.startswith("#")`, or `none`
when no branch fires. -/
def headingTarget (line : String) : Option SecId :=
  let lower_line := pyStrip (pyLower line)
  if strContains lower_line "overview" && pyStartsWith line "#" then
    some .overview
  else if strContains lower_line "architecture" && pyStartsWith line "#" then
    some .architecture_changes
  else if strContains lower_line "implementation" && strContains lower_line "step"
      && pyStartsWith line "#" then
    some .implementation_steps
  else if strContains lower_line "file" && strContains lower_line "modif"
      && pyStartsWith line "#" then
    some .file_modifications
  else if strContains lower_line "code" && strContains lower_line "example"
      && pyStartsWith line "#" then
    some .code_examples
  else if strContains lower_line "test" && pyStartsWith line "#" then
    some .testing_strategy
  else if strContains lower_line "issue" && pyStartsWith line "#" then
    some .potential_issues
  else none

/-- Writing one bucket of the `sections` dictionary (lines 348-352):
`overview` and `testing_strategy` receive `'\n'.join(content).strip()`,
the list buckets receive the accumulated line list itself. -/
def updateSections (s : Sections) (id : SecId) (content : List String) : Sections :=
  match id with
  | .overview => { s with overview := pyStrip (joinLines content) }
  | .testing_strategy => { s with testing_strategy := pyStrip (joinLines content) }
  | .architecture_changes => { s with architecture_changes := content }
  | .implementation_steps => { s with implementation_steps := content }
  | .file_modifications => { s with file_modifications := content }
  | .code_examples => { s with code_examples := content }
  | .potential_issues => { s with potential_issues := content }

/-- The loop state of `parse_gemini_response`: `current_section`,
`current_content`, and the `sections` dictionary. -/
structure ParseState where
  current : Option SecId
  content : List String
  secs : Sections
deriving DecidableEq

/-- The initial loop state: no section active, empty accumulator. -/
def initParseState : ParseState := ⟨none, [], initSections⟩

/-- One iteration of the `for line in response.split('\n')` loop
(lines 321-352): a recognized heading switches the current bucket and
resets the accumulator; otherwise, with a bucket active, the line is
appended and the bucket rewritten; with no bucket active the line is
dropped. -/
def parseStep (st : ParseState) (line : String) : ParseState :=
  match headingTarget line with
  | some id => { st with current := some id, content := [] }
  | none =>
    match st.current with
    | none => st
    | some id =>
      let content2 := st.content ++ [line]
      ⟨some id, content2, updateSections st.secs id content2⟩

/-- `GeminiTaskGenerator.parse_gemini_response` (lines 305-354). -/
def parse_gemini_response (response : String) : Sections :=
  ((pySplitNl response).foldl parseStep initParseState).secs

/-- Did the read succeed? (`open(...).read()` returned without raising.) -/
def readOk : Except String String → Bool
  | .ok _ => true
  | .error _ => false

/-- The text of a successful read, with a dummy for the error case. -/
def okValue : Except String String → String
  | .ok c => c
  | .error _ => ""

/-- One delimiter block exactly as the specification words it: the line
`*#*#*<relative_path>*#*#*begin*#*#*`, the raw content, the line
`*#*#*end*#*#*`, then a blank line separator. -/
def shotgunSpecBlock (rel content : String) : String :=
  "*#*#*" ++ rel ++ "*#*#*begin*#*#*" ++ "\n" ++ content ++ "\n" ++ "*#*#*end*#*#*" ++ "\n"

/-- A concrete MIME oracle for witnesses: the stdlib `mimetypes` table
restricted to the two extensions the examples use. -/
def guessDemo : String → Option String := fun p =>
  if pyEndsWith p ".txt" then some "text/plain"
  else if pyEndsWith p ".png" then some "image/png"
  else none

/-- A concrete environment, every stat answering 5 bytes. -/
def envDemo : SysEnv := ⟨guessDemo, fun _ => some 5⟩

/-- A concrete environment in which every `os.path.getsize` call raises
(as happens when the walked root is not the working directory). -/
def envStatFail : SysEnv := ⟨guessDemo, fun _ => none⟩

/-- A concrete tree: a `vendor/deep/file.txt` file excluded by the
trailing-slash rule `vendor/`, plus two includable text files. -/
def csDemo : List Entry :=
  [ Entry.dir "vendor" [Entry.dir "deep" [Entry.file "file.txt" (.ok "x")]],
    Entry.dir "src" [Entry.file "main.txt" (.ok "hello")],
    Entry.file "a.txt" (.ok "content a") ]

/-- A concrete tree with one includable file whose read raises. -/
def csUnreadable : List Entry :=
  [Entry.file "a.txt" (.error "Permission denied")]

end RepoToText

namespace RepoToText

lemma include_false_of_stat_none (env : SysEnv) (cfg : ProjectConfig) (path : String)
    (h : env.statSize path = none) : _should_include_file env cfg path = false := by
  simp [_should_include_file, h]

lemma include_false_of_rule_match (env : SysEnv) (cfg : ProjectConfig) (path rule : String)
    (hr : rule ∈ cfg.exclude_patterns ++ DEFAULT_EXCLUSIONS)
    (hm : fnmatch path rule = true ∨ strContains path rule = true) :
    _should_include_file env cfg path = false := by
  have hany : (cfg.exclude_patterns ++ DEFAULT_EXCLUSIONS).any
      (fun pattern => fnmatch path pattern || strContains path pattern) = true := by
    refine List.any_eq_true.mpr ⟨rule, hr, ?_⟩
    rcases hm with h | h <;> simp [h]
  simp [_should_include_file, hany]

/-- C1: the claim asserts that a non-empty `include_patterns` excludes
every path matching none of its patterns.  The code never consults
`include_patterns`: with `include_patterns = ["*.md"]`, the path `a.txt`
matches no include pattern under either glob or substring semantics, yet
`_should_include_file` accepts it. -/
theorem C1_counterexample :
    fnmatch "a.txt" "*.md" = false ∧ strContains "a.txt" "*.md" = false ∧
      _should_include_file envDemo
        { defaultConfig with include_patterns := ["*.md"] } "a.txt" = true :=
  ⟨by decide, by decide, by decide⟩

/-- C1 (amended): the include decision is entirely independent of
`include_patterns` — replacing that field by any list whatsoever leaves
the decision unchanged on every path. -/
theorem C1_include_patterns_ignored (env : SysEnv) (cfg : ProjectConfig)
    (pats : List String) (path : String) :
    _should_include_file env { cfg with include_patterns := pats } path =
      _should_include_file env cfg path := rfl

/-- C9: a failing size query (`os.path.getsize` raising, modelled as
`statSize = none`) makes the include decision return `false`; the bare
`except: return False` means the decision function never propagates the
error. -/
theorem C9_stat_failure_excluded (env : SysEnv) (cfg : ProjectConfig) (path : String)
    (h : env.statSize path = none) : _should_include_file env cfg path = false :=
  include_false_of_stat_none env cfg path h

/-- C9 witness: concrete stat-failing environment and path. -/
theorem C9_witness : _should_include_file envStatFail defaultConfig "a.txt" = false :=
  C9_stat_failure_excluded envStatFail defaultConfig "a.txt" rfl

end RepoToText

namespace RepoToText

/-- C2: the size check stats the root-relative path against the process
working directory (its `SysEnv.statSize` oracle), not the walked root; in
an environment where every such stat fails — as for any root whose
relative paths do not also denote readable files under the working
directory — every path is excluded and neither render emits a single
content block. -/
theorem C2_cwd_relative_stat (env : SysEnv) (cfg : ProjectConfig) (cs : List Entry)
    (h : ∀ p, env.statSize p = none) :
    (∀ path, _should_include_file env cfg path = false) ∧
      xmlContentPaths env cfg cs = [] ∧ shotgunContentPaths env cfg cs = [] ∧
      ∀ base, (walkRoot base cs).flatMap (contentLinesOf env cfg) = [] := by
  have hdec : ∀ path, _should_include_file env cfg path = false := fun path =>
    include_false_of_stat_none env cfg path (h path)
  refine ⟨hdec, ?_, ?_, ?_⟩
  · simp [xmlContentPaths, hdec]
  · simp [shotgunContentPaths, hdec]
  · intro base
    simp [contentLinesOf, hdec]

/-- C2 witness: a tree with a readable, rule-surviving text file still
renders no content block when every stat fails. -/
theorem C2_witness :
    xmlContentPaths envStatFail defaultConfig csDemo = [] ∧
      _should_include_file envStatFail defaultConfig "a.txt" = false := by
  have h := C2_cwd_relative_stat envStatFail defaultConfig csDemo (fun _ => rfl)
  exact ⟨h.2.1, h.1 "a.txt"⟩

end RepoToText

namespace RepoToText

lemma any_rule_iff (cfg : ProjectConfig) (path : String) :
    ((cfg.exclude_patterns ++ DEFAULT_EXCLUSIONS).any
        (fun pattern => fnmatch path pattern || strContains path pattern) = true) ↔
      (∃ pat ∈ cfg.exclude_patterns ++ DEFAULT_EXCLUSIONS,
        fnmatch path pat = true ∨ strContains path pat = true) := by
  rw [List.any_eq_true]
  exact exists_congr fun pat => and_congr_right fun _ => iff_of_eq (Bool.or_eq_true _ _)

lemma mime_check_iff (env : SysEnv) (path : String) :
    ((match env.guess path with
      | some mime_type => mime_type != "" && !(pyStartsWith mime_type "text/")
      | none => false) = true) ↔
      (∃ m, env.guess path = some m ∧ m ≠ "" ∧ pyStartsWith m "text/" = false) := by
  rcases hg : env.guess path with _ | m
  · simp [hg]
  · simp only [hg]
    constructor
    · intro hb
      simp only [Bool.and_eq_true, bne_iff_ne, ne_eq, Bool.not_eq_true'] at hb
      exact ⟨m, rfl, hb.1, hb.2⟩
    · rintro ⟨m', hm', h1, h2⟩
      obtain rfl : m' = m := (Option.some_injective _ hm').symm
      simp [h1, h2]

lemma size_check_false_iff (env : SysEnv) (cfg : ProjectConfig) (path : String) :
    ((match env.statSize path with
      | some n => if n > cfg.max_file_size then false else true
      | none => false) = false) ↔
      (env.statSize path = none ∨
        ∃ n, env.statSize path = some n ∧ cfg.max_file_size < n) := by
  rcases hs : env.statSize path with _ | n
  · simp [hs]
  · by_cases hn : n > cfg.max_file_size
    · simp [hs, hn]
    · simp [hs, hn]

/-- C4: characterization of the include decision — a path is rejected iff
some rule of `exclude_patterns + DEFAULT_EXCLUSIONS` matches it under
glob (`fnmatch`) or plain substring semantics, or its guessed MIME type
is truthy and non-textual, or its size stat fails or exceeds the ceiling.
In particular a match under either rule interpretation suffices, and a
path matching no rule under either interpretation survives the rule
check. -/
theorem C4_exclusion_rule_semantics (env : SysEnv) (cfg : ProjectConfig) (path : String) :
    _should_include_file env cfg path = false ↔
      ((∃ pat ∈ cfg.exclude_patterns ++ DEFAULT_EXCLUSIONS,
          fnmatch path pat = true ∨ strContains path pat = true)
        ∨ (∃ m, env.guess path = some m ∧ m ≠ "" ∧ pyStartsWith m "text/" = false)
        ∨ env.statSize path = none
        ∨ ∃ n, env.statSize path = some n ∧ cfg.max_file_size < n) := by
  unfold _should_include_file
  by_cases hA : (cfg.exclude_patterns ++ DEFAULT_EXCLUSIONS).any
      (fun pattern => fnmatch path pattern || strContains path pattern) = true
  · simp only [if_pos hA]
    constructor
    · intro _; exact Or.inl ((any_rule_iff cfg path).mp hA)
    · intro _; trivial
  · have hAn : ¬ ∃ pat ∈ cfg.exclude_patterns ++ DEFAULT_EXCLUSIONS,
        fnmatch path pat = true ∨ strContains path pat = true :=
      fun hex => hA ((any_rule_iff cfg path).mpr hex)
    simp only [if_neg hA]
    by_cases hM : (match env.guess path with
        | some mime_type => mime_type != "" && !(pyStartsWith mime_type "text/")
        | none => false) = true
    · simp only [if_pos hM]
      constructor
      · intro _; exact Or.inr (Or.inl ((mime_check_iff env path).mp hM))
      · intro _; trivial
    · have hMn : ¬ ∃ m, env.guess path = some m ∧ m ≠ "" ∧ pyStartsWith m "text/" = false :=
        fun hex => hM ((mime_check_iff env path).mpr hex)
      simp only [if_neg hM]
      rw [size_check_false_iff env cfg path]
      constructor
      · intro h; exact Or.inr (Or.inr h)
      · rintro (h | h | h)
        · exact absurd h hAn
        · exact absurd h hMn
        · exact h

end RepoToText

namespace RepoToText

/-- C8: the token estimate is a pure function of the text's character
length through the per-provider constant table (floor of length/ratio);
an unknown provider name falls back to the `generic` constant instead of
failing; the documented scenario holds: a 4000-character text estimates
to 1000 tokens for `openai`, and against the 128000-token `gpt-4` window
of `get_context_limits` the computed utilization is 25/32 percent, i.e.
0.78125%. -/
theorem C8_token_estimator :
    (∀ t₁ t₂ p, t₁.length = t₂.length → estimate_tokens t₁ p = estimate_tokens t₂ p)
    ∧ (∀ t p, TOKEN_RATIOS.lookup (pyLower p) = none →
        estimate_tokens t p = estimate_tokens t "generic")
    ∧ estimate_tokens (String.mk (List.replicate 4000 'a')) "openai" = 1000
    ∧ get_context_limits.lookup "gpt-4" = some 128000
    ∧ utilization (estimate_tokens (String.mk (List.replicate 4000 'a')) "openai") 128000
        = 25 / 32 := by
  have hest : estimate_tokens (String.mk (List.replicate 4000 'a')) "openai" = 1000 := by
    have h1 : tokenRatioOf "openai" = 4 := by rfl
    have h2 : (String.mk (List.replicate 4000 'a')).length = 4000 :=
      List.length_replicate 4000 'a'
    rw [estimate_tokens, h1, h2]
    norm_num
  refine ⟨?_, ?_, hest, rfl, ?_⟩
  · intro t₁ t₂ p h
    rw [estimate_tokens, estimate_tokens, h]
  · intro t p h
    rw [estimate_tokens, estimate_tokens, tokenRatioOf, tokenRatioOf, h]
    rfl
  · rw [hest]
    norm_num [utilization]

/-- C8 witness: concrete instantiations discharging the hypotheses of the
universally quantified conjuncts — equal-length texts estimate equally,
and the unknown provider `mistral` estimates exactly as `generic`. -/
theorem C8_witness :
    estimate_tokens "abcd" "openai" = estimate_tokens "wxyz" "openai" ∧
      estimate_tokens "abcd" "mistral" = estimate_tokens "abcd" "generic" :=
  ⟨C8_token_estimator.1 "abcd" "wxyz" "openai" rfl,
   C8_token_estimator.2.1 "abcd" "mistral" rfl⟩

/-- C10: the section splitter's documented example — `## Testing Strategy`
followed by `Run unit tests.` yields `testing_strategy = "Run unit tests."`
— and its general line discipline: a line matching no heading condition is
dropped while no bucket is active, and with an active bucket it is
appended to that bucket's accumulator which is written back to the bucket. -/
theorem C10_section_splitter :
    (parse_gemini_response "## Testing Strategy\nRun unit tests.").testing_strategy
        = "Run unit tests."
    ∧ (∀ st line, headingTarget line = none → st.current = none → parseStep st line = st)
    ∧ (∀ st line id, headingTarget line = none → st.current = some id →
        parseStep st line =
          ⟨some id, st.content ++ [line],
            updateSections st.secs id (st.content ++ [line])⟩) := by
  refine ⟨by rfl, ?_, ?_⟩
  · intro st line h1 h2
    simp [parseStep, h1, h2]
  · intro st line id h1 h2
    simp [parseStep, h1, h2]

/-- C10 witness: a body line before any heading is dropped; a body line
under the `testing_strategy` bucket is appended and written back. -/
theorem C10_witness :
    parseStep initParseState "plain body line" = initParseState ∧
      parseStep ⟨some .testing_strategy, [], initSections⟩ "Run unit tests." =
        ⟨some .testing_strategy, ["Run unit tests."],
          updateSections initSections .testing_strategy ["Run unit tests."]⟩ :=
  ⟨C10_section_splitter.2.1 initParseState "plain body line" rfl rfl,
   C10_section_splitter.2.2 ⟨some .testing_strategy, [], initSections⟩
     "Run unit tests." .testing_strategy rfl rfl⟩

end RepoToText

namespace RepoToText

lemma filterMapOkMem (env : SysEnv) (cfg : ProjectConfig) (l : List WalkFile) (p : String) :
    (p ∈ l.filterMap fun f =>
        if _should_include_file env cfg f.rel then
          (match f.content with | .ok _ => some f.rel | .error _ => none)
        else none) ↔
      ∃ f ∈ l, f.rel = p ∧ _should_include_file env cfg f.rel = true ∧
        ∃ c, f.content = .ok c := by
  rw [List.mem_filterMap]
  constructor
  · rintro ⟨f, hf, hsome⟩
    by_cases hd : _should_include_file env cfg f.rel = true
    · rw [if_pos hd] at hsome
      cases hc : f.content with
      | ok c =>
        rw [hc] at hsome
        exact ⟨f, hf, Option.some_injective _ hsome, hd, c, hc⟩
      | error e =>
        rw [hc] at hsome
        cases hsome
    · rw [if_neg hd] at hsome
      cases hsome
  · rintro ⟨f, hf, rfl, hd, c, hc⟩
    exact ⟨f, hf, by rw [if_pos hd, hc]⟩

lemma filterMapOk_sublist (env : SysEnv) (cfg : ProjectConfig) (l : List WalkFile) :
    (l.filterMap fun f =>
        if _should_include_file env cfg f.rel then
          (match f.content with | .ok _ => some f.rel | .error _ => none)
        else none).Sublist (l.map (·.rel)) := by
  induction l with
  | nil => simp
  | cons f l ih =>
    rw [List.map_cons]
    by_cases h : _should_include_file env cfg f.rel = true
    · cases hc : f.content with
      | ok c =>
        simp only [List.filterMap_cons, h, hc, if_true]
        exact ih.cons₂ f.rel
      | error e =>
        simp only [List.filterMap_cons, h, hc, if_true]
        exact ih.cons f.rel
    · simp only [List.filterMap_cons, if_neg h]
      exact ih.cons f.rel

lemma exists_dir_of_mem_allWalkFiles (cs : List Entry) (f : WalkFile)
    (hf : f ∈ allWalkFiles cs) (base : String) :
    ∃ d ∈ walkRoot base cs, f ∈ d.files := by
  have heq : (walkRoot base cs).flatMap (·.files) = allWalkFiles cs := rfl
  exact List.mem_flatMap.mp (heq ▸ hf)

lemma open_line_mem_contentLinesOf (env : SysEnv) (cfg : ProjectConfig) (d : WalkDir)
    (f : WalkFile) (c : String) (hf : f ∈ d.files)
    (hs : _should_include_file env cfg f.rel = true) (hc : f.content = .ok c) :
    ("<content full_path=\"" ++ f.rel ++ "\">") ∈ contentLinesOf env cfg d := by
  unfold contentLinesOf
  refine List.mem_flatMap.mpr ⟨f, hf, ?_⟩
  rw [if_pos hs, hc]
  simp

lemma error_line_mem_contentLinesOf (env : SysEnv) (cfg : ProjectConfig) (d : WalkDir)
    (f : WalkFile) (msg : String) (hf : f ∈ d.files)
    (hs : _should_include_file env cfg f.rel = true) (hc : f.content = .error msg) :
    ("<!-- Error reading " ++ f.rel ++ ": " ++ msg ++ " -->") ∈ contentLinesOf env cfg d := by
  unfold contentLinesOf
  refine List.mem_flatMap.mpr ⟨f, hf, ?_⟩
  rw [if_pos hs, hc]
  simp

lemma begin_line_mem_shotgunLinesOf (env : SysEnv) (cfg : ProjectConfig) (d : WalkDir)
    (f : WalkFile) (c : String) (hf : f ∈ d.files)
    (hs : _should_include_file env cfg f.rel = true) (hc : f.content = .ok c) :
    ("*#*#*" ++ f.rel ++ "*#*#*begin*#*#*") ∈ shotgunLinesOf env cfg d := by
  unfold shotgunLinesOf
  refine List.mem_flatMap.mpr ⟨f, hf, ?_⟩
  rw [if_pos hs, hc]
  simp

lemma mem_xmlLines_of_contentLine (env : SysEnv) (cfg : ProjectConfig) (base : String)
    (cs : List Entry) (d : WalkDir) (line : String) (hd : d ∈ walkRoot base cs)
    (hl : line ∈ contentLinesOf env cfg d) : line ∈ xmlLines env cfg base cs := by
  have hmem : line ∈ (walkRoot base cs).flatMap (contentLinesOf env cfg) :=
    List.mem_flatMap.mpr ⟨d, hd, hl⟩
  unfold xmlLines
  simp only [List.mem_append]
  tauto

lemma mem_shotgunLines_of_line (env : SysEnv) (cfg : ProjectConfig) (cs : List Entry)
    (d : WalkDir) (line : String) (hd : d ∈ walkRoot "" cs)
    (hl : line ∈ shotgunLinesOf env cfg d) : line ∈ shotgunLines env cfg cs :=
  List.mem_flatMap.mpr ⟨d, hd, hl⟩

/-- C3: the claim asserts that a trailing-slash rule (`vendor/`) prunes
descent so that nothing beneath the directory is ever reported.  Pruning
does not happen: the walk underlying both renders visits the subtree of
the excluded `vendor` directory (the `deep` directory appears among the
walked directories), and the rendered document itself still mentions the
nested directory `deep/` inside its structure section. -/
theorem C3_counterexample :
    ("deep" ∈ (walkRoot "proj" csDemo).map (·.base)) ∧
      strContains (generate_xml_format envDemo defaultConfig "proj" csDemo) "deep/" = true :=
  ⟨by decide, by decide⟩

/-- C3 (amended): descent is not pruned, but content fidelity still
holds — no path containing an exclusion rule as a substring (in
particular no path under a directory excluded by a trailing-slash rule)
is ever rendered as a content block, because every such path fails the
include decision. -/
theorem C3_no_content_under_excluded_dir (env : SysEnv) (cfg : ProjectConfig)
    (cs : List Entry) (rule : String)
    (hr : rule ∈ cfg.exclude_patterns ++ DEFAULT_EXCLUSIONS) :
    (∀ p, p ∈ xmlContentPaths env cfg cs → strContains p rule = false) ∧
      (∀ p, strContains p rule = true → _should_include_file env cfg p = false) := by
  have h2 : ∀ p, strContains p rule = true → _should_include_file env cfg p = false :=
    fun p hm => include_false_of_rule_match env cfg p rule hr (Or.inr hm)
  refine ⟨?_, h2⟩
  intro p hp
  rcases (filterMapOkMem env cfg (allWalkFiles cs) p).mp hp with ⟨f, _, rfl, hs, _⟩
  cases h : strContains f.rel rule with
  | false => rfl
  | true =>
    rw [h2 f.rel h] at hs
    cases hs

/-- C3 witness: with the default rules (containing `vendor/`) on the demo
tree, the rendered path `a.txt` indeed does not contain the rule. -/
theorem C3_witness : strContains "a.txt" "vendor/" = false :=
  (C3_no_content_under_excluded_dir envDemo defaultConfig csDemo "vendor/"
    (by decide)).1 "a.txt" (by decide)

end RepoToText

namespace RepoToText

/-- A concrete walked file used to instantiate the error-handling claims. -/
def wUnreadable : WalkFile := ⟨"a.txt", "a.txt", .error "Permission denied"⟩

/-- C6: the claim asserts that BOTH renders record a failed read as an
inline marker naming the path.  The shotgun renderer does not: its bare
`except: continue` silently drops the file.  Concretely, `a.txt` passes
the include decision, its read raises, and the shotgun output contains no
occurrence of the path at all. -/
theorem C6_counterexample :
    _should_include_file envDemo defaultConfig "a.txt" = true ∧
      strContains (generate_shotgun_format envDemo defaultConfig csUnreadable) "a.txt"
        = false :=
  ⟨by decide, by decide⟩

/-- C6 (amended): both renders complete without raising (they are total
functions of the tree); the XML render records each included unreadable
file as an inline `<!-- Error reading path: msg -->` comment, while the
shotgun render silently skips such a file, emitting no block for it. -/
theorem C6_read_failure_handling (env : SysEnv) (cfg : ProjectConfig) (base : String)
    (cs : List Entry) (f : WalkFile) (msg : String)
    (hnd : ((allWalkFiles cs).map (·.rel)).Nodup)
    (hf : f ∈ allWalkFiles cs) (hs : _should_include_file env cfg f.rel = true)
    (he : f.content = .error msg) :
    ("<!-- Error reading " ++ f.rel ++ ": " ++ msg ++ " -->") ∈ xmlLines env cfg base cs ∧
      f.rel ∉ shotgunContentPaths env cfg cs := by
  constructor
  · obtain ⟨d, hd, hfd⟩ := exists_dir_of_mem_allWalkFiles cs f hf base
    exact mem_xmlLines_of_contentLine env cfg base cs d _ hd
      (error_line_mem_contentLinesOf env cfg d f msg hfd hs he)
  · intro hmem
    rcases (filterMapOkMem env cfg (allWalkFiles cs) f.rel).mp hmem with
      ⟨f', hf', hrel, _, c, hc⟩
    have hff : f' = f := List.inj_on_of_nodup_map hnd hf' hf hrel
    rw [hff, he] at hc
    cases hc

/-- C6 witness: the concrete unreadable file of `csUnreadable`. -/
theorem C6_witness :
    ("<!-- Error reading " ++ wUnreadable.rel ++ ": " ++ "Permission denied" ++ " -->")
        ∈ xmlLines envDemo defaultConfig "proj" csUnreadable ∧
      wUnreadable.rel ∉ shotgunContentPaths envDemo defaultConfig csUnreadable :=
  C6_read_failure_handling envDemo defaultConfig "proj" csUnreadable wUnreadable
    "Permission denied" (by decide) (List.mem_singleton.mpr rfl) (by decide) rfl

/-- C5: the claim asserts every path decided as included appears exactly
once as a content block in each render.  A file can pass the include
decision (which stats but never reads) and still fail its read: then the
XML render emits an error comment instead of a content block and the
shotgun render emits nothing, so the included path `a.txt` appears zero
times as a content block in both renders. -/
theorem C5_counterexample :
    _should_include_file envDemo defaultConfig "a.txt" = true ∧
      (⟨"a.txt", "a.txt", Except.error "Permission denied"⟩ : WalkFile)
        ∈ allWalkFiles csUnreadable ∧
      xmlContentPaths envDemo defaultConfig csUnreadable = [] ∧
      shotgunContentPaths envDemo defaultConfig csUnreadable = [] :=
  ⟨by decide, List.mem_singleton.mpr rfl, by decide, by decide⟩

/-- C5 (amended): when the walked relative paths are pairwise distinct,
each render emits a content block exactly for the walked files that pass
the include decision AND whose read succeeds — each such path at most
once (the emitted path lists are duplicate-free), with the corresponding
block-opening line present in the rendered line list — and no excluded
path is ever emitted. -/
theorem C5_round_trip (env : SysEnv) (cfg : ProjectConfig) (base : String)
    (cs : List Entry) (hnd : ((allWalkFiles cs).map (·.rel)).Nodup) :
    (xmlContentPaths env cfg cs).Nodup ∧
      (shotgunContentPaths env cfg cs).Nodup ∧
      (∀ p, p ∈ xmlContentPaths env cfg cs ↔
        ∃ f ∈ allWalkFiles cs, f.rel = p ∧ _should_include_file env cfg f.rel = true ∧
          ∃ c, f.content = .ok c) ∧
      (∀ p, p ∈ shotgunContentPaths env cfg cs ↔
        ∃ f ∈ allWalkFiles cs, f.rel = p ∧ _should_include_file env cfg f.rel = true ∧
          ∃ c, f.content = .ok c) ∧
      (∀ p, p ∈ xmlContentPaths env cfg cs →
        ("<content full_path=\"" ++ p ++ "\">") ∈ xmlLines env cfg base cs) ∧
      (∀ p, p ∈ shotgunContentPaths env cfg cs →
        ("*#*#*" ++ p ++ "*#*#*begin*#*#*") ∈ shotgunLines env cfg cs) := by
  refine ⟨List.Nodup.sublist (filterMapOk_sublist env cfg (allWalkFiles cs)) hnd,
    List.Nodup.sublist (filterMapOk_sublist env cfg (allWalkFiles cs)) hnd,
    fun p => filterMapOkMem env cfg (allWalkFiles cs) p,
    fun p => filterMapOkMem env cfg (allWalkFiles cs) p, ?_, ?_⟩
  · intro p hp
    rcases (filterMapOkMem env cfg (allWalkFiles cs) p).mp hp with ⟨f, hf, rfl, hs, c, hc⟩
    obtain ⟨d, hd, hfd⟩ := exists_dir_of_mem_allWalkFiles cs f hf base
    exact mem_xmlLines_of_contentLine env cfg base cs d _ hd
      (open_line_mem_contentLinesOf env cfg d f c hfd hs hc)
  · intro p hp
    rcases (filterMapOkMem env cfg (allWalkFiles cs) p).mp hp with ⟨f, hf, rfl, hs, c, hc⟩
    obtain ⟨d, hd, hfd⟩ := exists_dir_of_mem_allWalkFiles cs f hf ""
    exact mem_shotgunLines_of_line env cfg cs d _ hd
      (begin_line_mem_shotgunLinesOf env cfg d f c hfd hs hc)

/-- C5 witness: the demo tree with duplicate-free paths, evaluated at the
included readable path `a.txt`. -/
theorem C5_witness :
    ("<content full_path=\"" ++ "a.txt" ++ "\">")
        ∈ xmlLines envDemo defaultConfig "proj" csDemo :=
  (C5_round_trip envDemo defaultConfig "proj" csDemo (by decide)).2.2.2.2.1 "a.txt"
    (by decide)

end RepoToText

namespace RepoToText

lemma joinLines_append (xs ys : List String) (hx : xs ≠ []) (hy : ys ≠ []) :
    joinLines (xs ++ ys) = joinLines xs ++ "\n" ++ joinLines ys := by
  induction xs with
  | nil => exact absurd rfl hx
  | cons x xs ih =>
    cases xs with
    | nil =>
      cases ys with
      | nil => exact absurd rfl hy
      | cons y ys' => rfl
    | cons x2 xs' =>
      have h2 : joinLines ((x :: x2 :: xs') ++ ys) =
          x ++ "\n" ++ joinLines ((x2 :: xs') ++ ys) := rfl
      have h3 : joinLines (x :: x2 :: xs') = x ++ "\n" ++ joinLines (x2 :: xs') := rfl
      rw [h2, ih (by simp), h3]
      simp [String.append_assoc]

lemma flatMap_if_guard {α β : Type} (p : α → Bool) (g : α → List β) (l : List α) :
    (l.flatMap fun a => if p a then g a else []) = (l.filter p).flatMap g := by
  induction l with
  | nil => rfl
  | cons a l ih =>
    by_cases h : p a = true
    · simp [List.flatMap_cons, List.filter_cons, h, ih]
    · simp [List.flatMap_cons, List.filter_cons, h, ih]

lemma flatMap_files_assoc (L : List WalkDir) (g : WalkFile → List String) :
    (L.flatMap fun d => d.files.flatMap g) = (L.flatMap (·.files)).flatMap g :=
  (List.flatMap_assoc L (·.files) g).symm

lemma join_blocks_eq_spec :
    ∀ (m : List WalkFile), (∀ f ∈ m, readOk f.content = true) →
      joinLines (m.flatMap fun f =>
          match f.content with
          | .ok content =>
            ["*#*#*" ++ f.rel ++ "*#*#*begin*#*#*", content, "*#*#*end*#*#*", ""]
          | .error _ => []) =
        joinLines (m.map fun f => shotgunSpecBlock f.rel (okValue f.content)) := by
  intro m
  induction m with
  | nil => intro _; rfl
  | cons f m ih =>
    intro h
    have hok := h f (List.mem_cons_self _ _)
    cases hc : f.content with
    | error e => rw [hc] at hok; cases hok
    | ok c =>
      have hblock : joinLines ["*#*#*" ++ f.rel ++ "*#*#*begin*#*#*", c, "*#*#*end*#*#*", ""]
          = shotgunSpecBlock f.rel (okValue f.content) := by
        simp [joinLines, shotgunSpecBlock, hc, okValue, String.append_assoc,
          String.append_empty]
      have hhead : (match f.content with
          | Except.ok content =>
            ["*#*#*" ++ f.rel ++ "*#*#*begin*#*#*", content, "*#*#*end*#*#*", ""]
          | Except.error _ => ([] : List String)) =
          ["*#*#*" ++ f.rel ++ "*#*#*begin*#*#*", c, "*#*#*end*#*#*", ""] := by
        rw [hc]
      rw [List.flatMap_cons, List.map_cons, hhead]
      cases m with
      | nil =>
        have : joinLines [shotgunSpecBlock f.rel (okValue f.content)] =
            shotgunSpecBlock f.rel (okValue f.content) := rfl
        rw [List.flatMap_nil, List.append_nil, List.map_nil, this, hblock]
      | cons f2 m' =>
        have hok2 := h f2 (List.mem_cons_of_mem f (List.mem_cons_self _ _))
        have hne2 : ((f2 :: m').flatMap fun f =>
            match f.content with
            | .ok content =>
              ["*#*#*" ++ f.rel ++ "*#*#*begin*#*#*", content, "*#*#*end*#*#*", ""]
            | .error _ => []) ≠ ([] : List String) := by
          cases hc2 : f2.content with
          | error e2 => rw [hc2] at hok2; cases hok2
          | ok c2 =>
            have hhead2 : (match f2.content with
                | Except.ok content =>
                  ["*#*#*" ++ f2.rel ++ "*#*#*begin*#*#*", content, "*#*#*end*#*#*", ""]
                | Except.error _ => ([] : List String)) =
                ["*#*#*" ++ f2.rel ++ "*#*#*begin*#*#*", c2, "*#*#*end*#*#*", ""] := by
              rw [hc2]
            rw [List.flatMap_cons, hhead2]
            simp
        have hcons : joinLines (shotgunSpecBlock f.rel (okValue f.content) ::
              (f2 :: m').map (fun f => shotgunSpecBlock f.rel (okValue f.content))) =
            shotgunSpecBlock f.rel (okValue f.content) ++ "\n" ++
              joinLines ((f2 :: m').map fun f =>
                shotgunSpecBlock f.rel (okValue f.content)) := rfl
        rw [joinLines_append _ _ (by simp) hne2,
          ih (fun f' hf' => h f' (List.mem_cons_of_mem f hf')), hcons, hblock]

/-- C7: the delimiter-block (shotgun) render is reproduced bit-for-bit by
the specification's description — when every included file's read
succeeds, the whole output equals the `\n`-join of one block per included
file, each block being exactly the line
`*#*#*<relative_path>*#*#*begin*#*#*`, the raw content, the line
`*#*#*end*#*#*`, and a blank separator line. -/
theorem C7_shotgun_bit_for_bit (env : SysEnv) (cfg : ProjectConfig) (cs : List Entry)
    (h : ∀ f ∈ allWalkFiles cs, _should_include_file env cfg f.rel = true →
      readOk f.content = true) :
    generate_shotgun_format env cfg cs =
      joinLines (((allWalkFiles cs).filter fun f => _should_include_file env cfg f.rel).map
        fun f => shotgunSpecBlock f.rel (okValue f.content)) := by
  unfold generate_shotgun_format shotgunLines shotgunLinesOf
  rw [flatMap_files_assoc]
  have heq : (walkRoot "" cs).flatMap (·.files) = allWalkFiles cs := rfl
  rw [heq, flatMap_if_guard]
  exact join_blocks_eq_spec _ fun f hf =>
    h f (List.mem_filter.mp hf).1 (List.mem_filter.mp hf).2

/-- C7 witness: a one-file tree, every included read succeeding. -/
theorem C7_witness :
    generate_shotgun_format envDemo defaultConfig [Entry.file "a.txt" (.ok "hi")] =
      joinLines (((allWalkFiles [Entry.file "a.txt" (.ok "hi")]).filter fun f =>
          _should_include_file envDemo defaultConfig f.rel).map
        fun f => shotgunSpecBlock f.rel (okValue f.content)) :=
  C7_shotgun_bit_for_bit envDemo defaultConfig [Entry.file "a.txt" (.ok "hi")]
    (by decide)

end RepoToText
